import Mathlib

/-!
Shallow embedding of the core of the-wealth-observatory (TypeScript/Next.js):
the ingestion pipeline (src/app/api/cron/update-billionaires/route.ts),
the entity-store access layer (src/lib/queries/billionaires.ts),
the comparison engine (src/lib/queries/comparisons.ts) and the aggregation
layer (getAggregateStats).  Currency amounts are embedded as exact rationals
where the code manipulates JS numbers arising from integer database values,
dates as integer day numbers, and database tables as lists of rows.
-/

namespace WealthObservatory

/-! ## Data model -/

/-- A row of the daily_snapshots table (one per billionaire and calendar day). -/
structure Snapshot where
  billionaire_id : Nat
  snapshot_date : Int
  net_worth : Int
  rank : Option Nat
  daily_change : Option Int
  data_source_id : Option Nat
deriving DecidableEq, Repr

/-- The key of a snapshot row: the pair protected by the
unique_billionaire_date constraint. -/
def Snapshot.key (s : Snapshot) : Nat × Int := (s.billionaire_id, s.snapshot_date)

/-- A row of the comparison_costs table. -/
structure ComparisonCost where
  id : Nat
  display_name : String
  cost : ℚ
  unit : String
  description : String
  region : String
  category : String
  active : Bool
  display_order : Int
deriving DecidableEq, Repr

/-- A row of the calculated_comparisons table. -/
structure CalculatedComparison where
  billionaire_id : Nat
  comparison_cost_id : Nat
  calculation_date : Int
  net_worth_used : ℚ
  quantity : Int
deriving DecidableEq, Repr

/-! ## JS numeric primitives used by the code -/

/-- JS Math.floor on an exact rational. -/
def jsFloor (x : ℚ) : Int := Int.floor x

/-- JS Math.max(0, x). -/
def jsMax0 (x : ℚ) : ℚ := max 0 x

/-- JS Math.round for the values the pipeline rounds (round half up). -/
def jsRound (x : ℚ) : Int := Int.floor (x + 1/2)

/-! ## Comparison engine (src/lib/queries/comparisons.ts) -/

/-- VALID_REGIONS from comparisons.ts. -/
def VALID_REGIONS : List String := ["Global", "United States", "Sub-Saharan Africa"]

/-- Region validation at the top of getAggregateComparisons: an unrecognized
region silently maps to Global. -/
def validateRegion (region : String) : String :=
  if VALID_REGIONS.contains region then region else "Global"

/-- Usable wealth in millions: Math.max(0, totalWealthMillions - thresholdUSD / 1e6),
as computed in getAggregateComparisons and calculateAndStoreComparisons. -/
def usableWealthMillions (totalWealthMillions : ℚ) (thresholdUSD : Int) : ℚ :=
  jsMax0 (totalWealthMillions - (thresholdUSD : ℚ) / 1000000)

/-- Usable wealth in USD: usableWealthMillions * 1_000_000. -/
def usableWealthUSD (totalWealthMillions : ℚ) (thresholdUSD : Int) : ℚ :=
  usableWealthMillions totalWealthMillions thresholdUSD * 1000000

/-- The point computation Math.floor(usableWealthUSD / cost). -/
def quantityFor (usableUSD : ℚ) (cost : ℚ) : Int := jsFloor (usableUSD / cost)

/-- Insertion into a list kept sorted by display_order ascending. -/
def insertByOrder (c : ComparisonCost) : List ComparisonCost → List ComparisonCost
  | [] => [c]
  | d :: ds =>
      if c.display_order ≤ d.display_order then c :: d :: ds else d :: insertByOrder c ds

/-- ORDER BY display_order ASC realized as an insertion sort. -/
def sortByDisplayOrder (l : List ComparisonCost) : List ComparisonCost :=
  l.foldr insertByOrder []

/-- The catalog query of getAggregateComparisons:
SELECT * FROM comparison_costs WHERE active = true AND region = $1
ORDER BY display_order ASC LIMIT 6. -/
def activeRegionCostsTop6 (catalog : List ComparisonCost) (region : String) :
    List ComparisonCost :=
  (sortByDisplayOrder (catalog.filter (fun c => c.active && c.region == region))).take 6

/-- One element of the result of getAggregateComparisons. -/
structure AggregateComparison where
  displayName : String
  quantity : Int
  unit : String
  description : String
  costPerUnit : ℚ
deriving DecidableEq, Repr

/-- The error thrown by getAggregateComparisons when no costs remain. -/
def emptyCatalogError : String :=
  "No active comparison costs found in database. Please seed comparison_costs table."

/-- The cost list getAggregateComparisons ends up iterating: the active costs
of the validated region, replaced by the active costs of Global when that
list is empty and the validated region is not Global (the single fallback). -/
def aggCosts (catalog : List ComparisonCost) (region : String) :
    List ComparisonCost :=
  let validatedRegion := validateRegion region
  let costs0 := activeRegionCostsTop6 catalog validatedRegion
  if costs0.isEmpty && validatedRegion != "Global" then
    activeRegionCostsTop6 catalog "Global"
  else costs0

/-- getAggregateComparisons from comparisons.ts: validate the region, read the
wealth threshold, query the active costs of the validated region, fall back
once to Global when that query is empty and the validated region is not Global,
throw when still empty, and otherwise map each cost to a floor-divided
quantity. -/
def getAggregateComparisons (catalog : List ComparisonCost) (thresholdUSD : Int)
    (totalWealthMillions : ℚ) (region : String) :
    Except String (List AggregateComparison) :=
  let usableUSD := usableWealthUSD totalWealthMillions thresholdUSD
  let costs := aggCosts catalog region
  if costs.isEmpty then
    Except.error emptyCatalogError
  else
    Except.ok (costs.map (fun c =>
      { displayName := c.display_name
        quantity := quantityFor usableUSD c.cost
        unit := c.unit
        description := c.description
        costPerUnit := c.cost }))

/-- The latest snapshot of one billionaire:
SELECT * FROM daily_snapshots WHERE billionaire_id = b ORDER BY snapshot_date DESC LIMIT 1,
and also the per-billionaire subquery snapshot_date = MAX(snapshot_date) used by
getCurrentTopBillionaires and calculateAndStoreComparisons (unique under the
snapshot key constraint). -/
def latestSnapshot : List Snapshot → Nat → Option Snapshot
  | [], _ => none
  | s :: rest, b =>
      let r := latestSnapshot rest b
      if s.billionaire_id == b then
        match r with
        | none => some s
        | some t => if s.snapshot_date < t.snapshot_date then some t else some s
      else r

/-- The join of calculateAndStoreComparisons: every billionaire id paired with
the net worth of its latest snapshot, those without any snapshot dropped.
Note that the snapshot selected is the latest overall, with no restriction to
the calculation date. -/
def billionairesWithLatest (ids : List Nat) (snaps : List Snapshot) :
    List (Nat × Int) :=
  ids.filterMap (fun i => (latestSnapshot snaps i).map (fun s => (i, s.net_worth)))

/-- The inner double loop of calculateAndStoreComparisons: the rows actually
upserted (quantity > 0 only; zero-quantity pairs are skipped). -/
def comparisonsWritten (thresholdUSD : Int) (pairs : List (Nat × Int))
    (costs : List ComparisonCost) (calculationDate : Int) :
    List CalculatedComparison :=
  pairs.flatMap (fun p =>
    let usableMillions := usableWealthMillions (p.2 : ℚ) thresholdUSD
    let usableUSD := usableMillions * 1000000
    costs.filterMap (fun c =>
      let q := quantityFor usableUSD c.cost
      if 0 < q then
        some { billionaire_id := p.1
               comparison_cost_id := c.id
               calculation_date := calculationDate
               net_worth_used := usableMillions
               quantity := q }
      else none))

/-- calculateAndStoreComparisons from comparisons.ts: the list of
calculated_comparisons rows upserted for a run with the given calculation
date, over the billionaires joined with their latest snapshots and the
active costs. -/
def calculateAndStoreComparisons (thresholdUSD : Int) (billionaireIds : List Nat)
    (catalog : List ComparisonCost) (snaps : List Snapshot)
    (calculationDate : Int) : List CalculatedComparison :=
  comparisonsWritten thresholdUSD (billionairesWithLatest billionaireIds snaps)
    (catalog.filter (fun c => c.active)) calculationDate

/-! ## Entity store and ingestion (src/lib/queries/billionaires.ts,
src/app/api/cron/update-billionaires/route.ts) -/

/-- The mutable fields of a billionaires row, overwritten on every upsert. -/
structure EntityData where
  person_name : String
  gender : Option String
  country_of_citizenship : Option String
  industries : List String
  birth_date : Option Int
  image_url : Option String
  bio : Option String
  forbes_uri : Option String
deriving DecidableEq, Repr

/-- A row of the billionaires table: serial id, unique slug, mutable data. -/
structure Entity where
  id : Nat
  slug : String
  data : EntityData
deriving DecidableEq, Repr

/-- A fresh serial id for an insert. -/
def freshId (es : List Entity) : Nat := es.foldl (fun m e => max m e.id) 0 + 1

/-- upsertBillionaire from billionaires.ts: first SELECT id WHERE slug = $1
(wasCreated is true when that returns no row), then INSERT ... ON CONFLICT
(slug) DO UPDATE overwriting every mutable field.  Returns the new entity
list, the id, and wasCreated. -/
def upsertBillionaire (es : List Entity) (slug : String) (d : EntityData) :
    List Entity × Nat × Bool :=
  match es.find? (fun e => e.slug == slug) with
  | some e =>
      (es.map (fun e2 => if e2.slug == slug then { e2 with data := d } else e2),
       e.id, false)
  | none => (es ++ [{ id := freshId es, slug := slug, data := d }], freshId es, true)

/-- JS coercion x || null on a nullable integer as used in insertDailySnapshot:
the number 0 is falsy and becomes null. -/
def jsOrNullInt (x : Option Int) : Option Int :=
  match x with
  | some v => if v = 0 then none else some v
  | none => none

/-- JS coercion x || null on a nullable natural. -/
def jsOrNullNat (x : Option Nat) : Option Nat :=
  match x with
  | some v => if v = 0 then none else some v
  | none => none

/-- Key match for the unique_billionaire_date constraint. -/
def snapKeyMatches (bId : Nat) (day : Int) (s : Snapshot) : Bool :=
  s.billionaire_id == bId && s.snapshot_date == day

/-- insertDailySnapshot from billionaires.ts: INSERT ... ON CONFLICT
(billionaire_id, snapshot_date) DO UPDATE of net_worth, rank, daily_change
and data_source_id; the parameters rank, dailyChange and dataSourceId are
passed through the JS coercion x || null. -/
def insertDailySnapshot (store : List Snapshot) (bId : Nat) (day : Int)
    (netWorth : Int) (rank : Option Nat) (dailyChange : Option Int)
    (dataSourceId : Option Nat) : List Snapshot :=
  let row : Snapshot :=
    { billionaire_id := bId
      snapshot_date := day
      net_worth := netWorth
      rank := jsOrNullNat rank
      daily_change := jsOrNullInt dailyChange
      data_source_id := jsOrNullNat dataSourceId }
  if store.any (snapKeyMatches bId day) then
    store.map (fun s => if snapKeyMatches bId day s then row else s)
  else
    store ++ [row]

/-- The daily-change computation of the cron route (lines 148 to 167): look up
the snapshot dated exactly today minus one day; if found the delta is the
difference of the amounts (Math.round of an integer difference), otherwise the
delta is null. -/
def computeDailyChange (store : List Snapshot) (bId : Nat) (today : Int)
    (currentWorth : Int) : Option Int :=
  match store.find? (fun s => s.billionaire_id == bId && s.snapshot_date == today - 1) with
  | some y => some (currentWorth - y.net_worth)
  | none => none

/-- The snapshot part of one loop iteration of the cron route: compute the
daily change against yesterday, then insert the daily snapshot for today. -/
def ingestSnapshot (store : List Snapshot) (bId : Nat) (today : Int)
    (currentWorth : Int) (rank : Option Nat) (dataSourceId : Option Nat) :
    List Snapshot :=
  insertDailySnapshot store bId today currentWorth rank
    (computeDailyChange store bId today currentWorth) dataSourceId

/-- One external feed record after slug derivation and normalization. -/
structure InRecord where
  slug : String
  data : EntityData
  netWorth : Int
  rank : Nat
deriving DecidableEq, Repr

/-- The state written by the pipeline: billionaires and daily_snapshots. -/
structure Store where
  entities : List Entity
  snapshots : List Snapshot
deriving DecidableEq, Repr

/-- One loop iteration of the cron route for one record: upsert the entity by
slug, then compute the delta and upsert the snapshot for (entity, today).
Returns the new store and the wasCreated flag. -/
def processRecord (st : Store) (today : Int) (dsId : Option Nat) (r : InRecord) :
    Store × Bool :=
  let u := upsertBillionaire st.entities r.slug r.data
  let snaps := ingestSnapshot st.snapshots u.2.1 today r.netWorth (some r.rank) dsId
  ({ entities := u.1, snapshots := snaps }, u.2.2)

/-- The sequential loop of the cron route over a batch of records, collecting
the wasCreated flag of each record. -/
def processBatch (st : Store) (today : Int) (dsId : Option Nat) :
    List InRecord → Store × List Bool
  | [] => (st, [])
  | r :: rs =>
      let p := processRecord st today dsId r
      let q := processBatch p.1 today dsId rs
      (q.1, p.2 :: q.2)

/-- Uniqueness invariant of the billionaires table: slugs are pairwise
distinct. -/
def slugsNodup (es : List Entity) : Prop := (es.map (fun e => e.slug)).Nodup

/-- Uniqueness invariant of the daily_snapshots table: the
(billionaire_id, snapshot_date) keys are pairwise distinct. -/
def snapKeysNodup (ss : List Snapshot) : Prop := (ss.map Snapshot.key).Nodup

/-! ## Run summary of the cron route (src/app/api/cron/update-billionaires/route.ts) -/

/-- Outcome of processing one record inside the loop of the cron route: the
upsert either created or updated the entity, or the iteration threw and was
caught by the per-record try/catch. -/
inductive RecOutcome
  | created
  | updated
  | failed
deriving DecidableEq, Repr

/-- The observable summary of one run of the route: HTTP status, the success
flag of the JSON body, the three counters reported in the JSON body, and the
status written to the update_metadata record. -/
structure RunSummary where
  httpStatus : Nat
  success : Bool
  recordsCreated : Nat
  recordsUpdated : Nat
  recordsFailed : Nat
  updateStatus : String
deriving DecidableEq, Repr

/-- The run logic of the GET handler after authorization: a fetch error or an
empty payload aborts before the loop with counters at zero and status failed;
otherwise the loop runs over slice(0, 50) of the feed, each per-record failure
only increments recordsFailed, and the update record status is success when
recordsFailed is zero and partial otherwise. -/
def runUpdate (fetched : Except String (List RecOutcome)) : RunSummary :=
  match fetched with
  | Except.error _ =>
      { httpStatus := 500, success := false, recordsCreated := 0,
        recordsUpdated := 0, recordsFailed := 0, updateStatus := "failed" }
  | Except.ok outcomes =>
      if outcomes.isEmpty then
        { httpStatus := 500, success := false, recordsCreated := 0,
          recordsUpdated := 0, recordsFailed := 0, updateStatus := "failed" }
      else
        let batch := outcomes.take 50
        let c := batch.countP (fun o => o == RecOutcome.created)
        let u := batch.countP (fun o => o == RecOutcome.updated)
        let f := batch.countP (fun o => o == RecOutcome.failed)
        { httpStatus := 200, success := true, recordsCreated := c,
          recordsUpdated := u, recordsFailed := f,
          updateStatus := if f = 0 then "success" else "partial" }

/-! ## History query (src/lib/queries/billionaires.ts, getBillionaireHistory) -/

/-- One row of the history result. -/
structure HistoryRow where
  snapshot_date : Int
  net_worth : Int
  rank : Option Nat
deriving DecidableEq, Repr

/-- JS Number.isInteger on an exact rational. -/
def jsIsInteger (q : ℚ) : Bool := q.den == 1

/-- Insertion into a list kept sorted by snapshot_date ascending. -/
def insertByDate (r : HistoryRow) : List HistoryRow → List HistoryRow
  | [] => [r]
  | s :: ss =>
      if r.snapshot_date ≤ s.snapshot_date then r :: s :: ss else s :: insertByDate r ss

/-- ORDER BY snapshot_date ASC realized as an insertion sort. -/
def sortHistAsc (l : List HistoryRow) : List HistoryRow :=
  l.foldr insertByDate []

/-- The error message of getBillionaireHistory for an invalid days value. -/
def invalidDaysError : String :=
  "Invalid days parameter. Must be an integer between 1 and 365."

/-- The WHERE clause of getBillionaireHistory: the rows of the billionaire
with snapshot_date at or after CURRENT_DATE minus the days interval. -/
def historyFilter (store : List Snapshot) (today : Int) (bId : Nat)
    (days : ℚ) : List Snapshot :=
  store.filter (fun s =>
    s.billionaire_id == bId && decide ((today : ℚ) - days ≤ (s.snapshot_date : ℚ)))

/-- Projection of a snapshot to a history result row. -/
def toHistoryRow (s : Snapshot) : HistoryRow :=
  { snapshot_date := s.snapshot_date, net_worth := s.net_worth, rank := s.rank }

/-- getBillionaireHistory from billionaires.ts: reject a non-integer,
below-1 or above-365 days value before any query runs, otherwise return the
rows of the billionaire with snapshot_date at or after today minus days,
ordered ascending by date. -/
def getBillionaireHistory (store : List Snapshot) (today : Int) (bId : Nat)
    (days : ℚ) : Except String (List HistoryRow) :=
  if ¬ jsIsInteger days ∨ days < 1 ∨ days > 365 then
    Except.error invalidDaysError
  else
    Except.ok (sortHistAsc ((historyFilter store today bId days).map toHistoryRow))

/-! ## Aggregation layer (getAggregateStats) -/

/-- SELECT MAX(snapshot_date) FROM daily_snapshots: the single most recent
snapshot date across the whole table. -/
def maxSnapshotDate (snaps : List Snapshot) : Option Int :=
  (snaps.map (fun s => s.snapshot_date)).max?

/-- Rank filter of getAggregateStats: rank IS NOT NULL AND rank <= 50. -/
def rankTop50 (s : Snapshot) : Bool :=
  match s.rank with
  | some r => r ≤ 50
  | none => false

/-- The snapshot rows summed by getAggregateStats: those dated at the global
maximum snapshot date whose rank is non-null and at most 50. -/
def aggregateStatsRows (snaps : List Snapshot) : List Snapshot :=
  match maxSnapshotDate snaps with
  | none => []
  | some d => snaps.filter (fun s => s.snapshot_date == d && rankTop50 s)

/-- getAggregateStats totals: SUM(net_worth) and COUNT(*) over the rows dated
at the global maximum snapshot date with non-null rank at most 50 (an empty
selection yields 0 and 0 through the || 0 coercions). -/
def getAggregateStatsTotals (snaps : List Snapshot) : Int × Nat :=
  let sel := aggregateStatsRows snaps
  (sel.foldl (fun t s => t + s.net_worth) 0, sel.length)

/-! ## Authorization gate (timingSafeEqual in the cron route) -/

/-- timingSafeEqual from the cron route, over strings as lists of UTF-16 code
units: distinct lengths return false immediately, otherwise the bitwise or of
the pointwise xors is compared with zero. -/
def timingSafeEqual (a b : List Nat) : Bool :=
  if a.length ≠ b.length then false
  else ((a.zip b).foldl (fun acc p => acc ||| (p.1 ^^^ p.2)) 0) == 0

/-- The authorization decision of the GET handler: a missing header is
rejected, a present header is accepted exactly when timingSafeEqual accepts
it against the expected Bearer value. -/
def authAccepts (header : Option (List Nat)) (expected : List Nat) : Bool :=
  match header with
  | none => false
  | some h => timingSafeEqual h expected

/-! ## Helper lemmas -/

theorem nat_or_eq_zero (m n : Nat) : m ||| n = 0 ↔ m = 0 ∧ n = 0 := by
  constructor
  · intro h
    have hm : m = 0 := by
      apply Nat.eq_of_testBit_eq
      intro i
      have h2 := congrArg (fun x => Nat.testBit x i) h
      simp only [Nat.testBit_or, Nat.zero_testBit, Bool.or_eq_false_iff] at h2
      simp [h2.1]
    have hn : n = 0 := by
      apply Nat.eq_of_testBit_eq
      intro i
      have h2 := congrArg (fun x => Nat.testBit x i) h
      simp only [Nat.testBit_or, Nat.zero_testBit, Bool.or_eq_false_iff] at h2
      simp [h2.2]
    exact ⟨hm, hn⟩
  · rintro ⟨rfl, rfl⟩
    rfl

theorem xorFoldZero (l : List (Nat × Nat)) (acc : Nat) :
    l.foldl (fun a p => a ||| (p.1 ^^^ p.2)) acc = 0 ↔
      acc = 0 ∧ ∀ p ∈ l, p.1 = p.2 := by
  induction l generalizing acc with
  | nil => simp
  | cons h t ih =>
      simp only [List.foldl_cons, ih, nat_or_eq_zero, Nat.xor_eq_zero, List.mem_cons]
      constructor
      · rintro ⟨⟨h1, h2⟩, h3⟩
        refine ⟨h1, fun p hp => ?_⟩
        rcases hp with rfl | hp
        · exact h2
        · exact h3 p hp
      · rintro ⟨h1, h2⟩
        exact ⟨⟨h1, h2 h (Or.inl rfl)⟩, fun p hp => h2 p (Or.inr hp)⟩

theorem zip_pointwise_eq (a : List Nat) : ∀ b : List Nat, a.length = b.length →
    ((∀ p ∈ a.zip b, p.1 = p.2) ↔ a = b) := by
  induction a with
  | nil =>
      intro b hlen
      cases b with
      | nil => simp
      | cons y ys => simp at hlen
  | cons x xs ih =>
      intro b hlen
      cases b with
      | nil => simp at hlen
      | cons y ys =>
          have hlen2 : xs.length = ys.length := by simpa using hlen
          simp only [List.zip_cons_cons, List.mem_cons, List.cons.injEq]
          constructor
          · intro h
            refine ⟨h (x, y) (Or.inl rfl), ?_⟩
            exact (ih ys hlen2).mp (fun p hp => h p (Or.inr hp))
          · rintro ⟨hxy, hxs⟩ p hp
            rcases hp with rfl | hp
            · exact hxy
            · exact (ih ys hlen2).mpr hxs p hp

/-! ## Claim theorems -/

/-- C10: the credential comparison function timingSafeEqual returns true if
and only if its two arguments are equal code unit by code unit (same length,
same value at every index); consequently the trigger accepts a bearer header
exactly when it equals the configured expected value. -/
theorem c10_timingSafeEqual_iff_eq :
    (∀ a b : List Nat, timingSafeEqual a b = true ↔ a = b) ∧
    (∀ h e, authAccepts h e = true ↔ h = some e) := by
  have main : ∀ a b : List Nat, timingSafeEqual a b = true ↔ a = b := by
    intro a b
    unfold timingSafeEqual
    by_cases hlen : a.length = b.length
    · simp only [hlen, ne_eq, not_true_eq_false, if_false, beq_iff_eq]
      rw [xorFoldZero]
      simp only [true_and]
      exact zip_pointwise_eq a b hlen
    · simp only [ne_eq, hlen, not_false_eq_true, if_true]
      constructor
      · intro h
        simp at h
      · intro h
        exact absurd (congrArg List.length h) hlen
  refine ⟨main, fun h e => ?_⟩
  cases h with
  | none => simp [authAccepts]
  | some v => simp [authAccepts, main]

/-- Witness for C10 at concrete inputs. -/
theorem c10_timingSafeEqual_iff_eq_witness :
    timingSafeEqual [66, 101, 97] [66, 101, 97] = true ∧
      authAccepts (some [66, 101]) [66, 101] = true :=
  ⟨(c10_timingSafeEqual_iff_eq.1 [66, 101, 97] [66, 101, 97]).mpr rfl,
   (c10_timingSafeEqual_iff_eq.2 (some [66, 101]) [66, 101]).mpr rfl⟩

theorem recOutcome_count_partition (l : List RecOutcome) :
    l.countP (fun o => o == RecOutcome.created) +
      l.countP (fun o => o == RecOutcome.updated) +
      l.countP (fun o => o == RecOutcome.failed) = l.length := by
  induction l with
  | nil => rfl
  | cons h t ih =>
      cases h <;> simp [List.countP_cons] <;> omega

/-- C7: a per-record failure only increments the failure counter, the batch
always runs to completion with the counters partitioning the batch, the
update record status is success exactly when zero records failed and partial
when some failed, a fetch abort is logged as failed, and a batch of 50
records with exactly one failure yields recordsFailed = 1,
recordsCreated + recordsUpdated = 49 and status partial, reported in the
JSON response. -/
theorem c7_run_status_partial_failure :
    (∀ outcomes : List RecOutcome, outcomes ≠ [] →
      (runUpdate (Except.ok outcomes)).recordsCreated +
          (runUpdate (Except.ok outcomes)).recordsUpdated +
          (runUpdate (Except.ok outcomes)).recordsFailed =
          (outcomes.take 50).length ∧
        (runUpdate (Except.ok outcomes)).httpStatus = 200 ∧
        ((runUpdate (Except.ok outcomes)).updateStatus = "success" ↔
          (runUpdate (Except.ok outcomes)).recordsFailed = 0) ∧
        ((runUpdate (Except.ok outcomes)).recordsFailed ≠ 0 →
          (runUpdate (Except.ok outcomes)).updateStatus = "partial")) ∧
    (∀ e, runUpdate (Except.error e) =
      { httpStatus := 500, success := false, recordsCreated := 0,
        recordsUpdated := 0, recordsFailed := 0, updateStatus := "failed" }) ∧
    (∀ outcomes : List RecOutcome, outcomes.length = 50 →
      outcomes.countP (fun o => o == RecOutcome.failed) = 1 →
      (runUpdate (Except.ok outcomes)).recordsFailed = 1 ∧
        (runUpdate (Except.ok outcomes)).recordsCreated +
          (runUpdate (Except.ok outcomes)).recordsUpdated = 49 ∧
        (runUpdate (Except.ok outcomes)).updateStatus = "partial" ∧
        (runUpdate (Except.ok outcomes)).success = true) := by
  refine ⟨?_, ?_, ?_⟩
  · intro outcomes hne
    have hemp : outcomes.isEmpty = false := by
      cases outcomes with
      | nil => exact absurd rfl hne
      | cons h t => rfl
    simp only [runUpdate, hemp, Bool.false_eq_true, if_false]
    refine ⟨recOutcome_count_partition _, by trivial, ?_, ?_⟩
    · by_cases hf : (outcomes.take 50).countP (fun o => o == RecOutcome.failed) = 0
      · simp [hf]
      · simp [hf]
    · intro hf
      simp [hf]
  · intro e
    rfl
  · intro outcomes h50 hf
    have hemp : outcomes.isEmpty = false := by
      cases outcomes with
      | nil => simp at h50
      | cons h t => rfl
    have htake : outcomes.take 50 = outcomes :=
      List.take_of_length_le (le_of_eq h50)
    have hpart := recOutcome_count_partition outcomes
    simp only [runUpdate, hemp, Bool.false_eq_true, if_false, htake, hf]
    refine ⟨by trivial, ?_, ?_, by trivial⟩
    · omega
    · simp

/-- Witness for C7: a batch of 49 updated records and one failed record. -/
theorem c7_run_status_partial_failure_witness :
    (runUpdate (Except.ok (List.replicate 49 RecOutcome.updated ++
        [RecOutcome.failed]))).recordsFailed = 1 ∧
      (runUpdate (Except.ok (List.replicate 49 RecOutcome.updated ++
          [RecOutcome.failed]))).recordsCreated +
        (runUpdate (Except.ok (List.replicate 49 RecOutcome.updated ++
          [RecOutcome.failed]))).recordsUpdated = 49 ∧
      (runUpdate (Except.ok (List.replicate 49 RecOutcome.updated ++
          [RecOutcome.failed]))).updateStatus = "partial" ∧
      (runUpdate (Except.ok (List.replicate 49 RecOutcome.updated ++
          [RecOutcome.failed]))).success = true :=
  c7_run_status_partial_failure.2.2
    (List.replicate 49 RecOutcome.updated ++ [RecOutcome.failed])
    (by decide) (by decide)

/-- The failing input for C1: billionaire 1 has a single snapshot dated day 9
at amount 500, and day 10 is ingested at the unchanged amount 500. -/
def c1Store : List Snapshot :=
  [{ billionaire_id := 1, snapshot_date := 9, net_worth := 500, rank := some 1,
     daily_change := none, data_source_id := none }]

/-- C1: at the failing input the route computes a daily delta of 0 from the
day-9 snapshot, but the stored day-10 snapshot carries daily_change null,
because insertDailySnapshot passes the delta through the JS coercion
dailyChange || null, which maps the number 0 to null.  The stored zero delta
is therefore not distinguishable from missing history, against the spec. -/
theorem c1_zero_delta_stored_as_null :
    computeDailyChange c1Store 1 10 500 = some 0 ∧
      ingestSnapshot c1Store 1 10 500 (some 1) none =
        c1Store ++
          [{ billionaire_id := 1, snapshot_date := 10, net_worth := 500,
             rank := some 1, daily_change := none, data_source_id := none }] ∧
      jsOrNullInt (some 0) = none ∧
      jsOrNullInt (some 7) = some 7 := by decide

/-- C3 counterexample: at a fortune of 10,000.01 million USD and the
10,000,000 USD living reserve, the usable wealth the code computes is
9,990,010,000 USD, not the 9,990,000,000 USD stated by the claim; the
quantity at unit cost 15,000 is nonetheless 666,000. -/
theorem c3_counterexample :
    usableWealthUSD (1000001 / 100) 10000000 = 9990010000 ∧
      usableWealthUSD (1000001 / 100) 10000000 ≠ 9990000000 ∧
      quantityFor (usableWealthUSD (1000001 / 100) 10000000) 15000 = 666000 := by
  refine ⟨?_, ?_, ?_⟩
  · norm_num [usableWealthUSD, usableWealthMillions, jsMax0]
  · norm_num [usableWealthUSD, usableWealthMillions, jsMax0]
  · norm_num [usableWealthUSD, usableWealthMillions, jsMax0, quantityFor, jsFloor]

/-- C3 amended: every quantity returned by getAggregateComparisons is the
floor of the usable wealth in USD divided by the unit cost, usable wealth is
never negative, and in particular usable wealth 9,990,010,000 (a
10,000,010,000 USD fortune minus the 10,000,000 USD reserve) at unit cost
15,000 yields quantity 666,000. -/
theorem c3_floor_division_quantity :
    (∀ catalog thresholdUSD totalWealthMillions region rows,
      getAggregateComparisons catalog thresholdUSD totalWealthMillions region =
          Except.ok rows →
        ∀ r ∈ rows,
          r.quantity =
            jsFloor (usableWealthUSD totalWealthMillions thresholdUSD /
              r.costPerUnit)) ∧
      (∀ w t, 0 ≤ usableWealthUSD w t) ∧
      usableWealthUSD (1000001 / 100) 10000000 = 9990010000 ∧
      quantityFor (usableWealthUSD (1000001 / 100) 10000000) 15000 = 666000 := by
  refine ⟨?_, ?_, c3_counterexample.1, c3_counterexample.2.2⟩
  · intro catalog t w region rows hok r hr
    unfold getAggregateComparisons at hok
    by_cases he : (aggCosts catalog region).isEmpty
    · simp only [he, if_true] at hok
      cases hok
    · simp only [he, Bool.false_eq_true, if_false, Except.ok.injEq] at hok
      subst hok
      obtain ⟨c, _, rfl⟩ := List.mem_map.mp hr
      rfl
  · intro w t
    unfold usableWealthUSD usableWealthMillions jsMax0
    positivity

/-- Concrete catalog for the C3 witness: one active Global cost of 15,000. -/
def c3Catalog : List ComparisonCost :=
  [{ id := 7, display_name := "x", cost := 15000, unit := "u", description := "d",
     region := "Global", category := "cat", active := true, display_order := 1 }]

/-- Concrete result rows for the C3 witness. -/
def c3Rows : List AggregateComparison :=
  [{ displayName := "x", quantity := 666000, unit := "u", description := "d",
     costPerUnit := 15000 }]

/-- Witness for C3 at a concrete catalog, fortune and cost. -/
theorem c3_floor_division_quantity_witness :
    ({ displayName := "x", quantity := 666000, unit := "u", description := "d",
       costPerUnit := 15000 } : AggregateComparison).quantity =
      jsFloor (usableWealthUSD (1000001 / 100) 10000000 /
        ({ displayName := "x", quantity := 666000, unit := "u", description := "d",
           costPerUnit := 15000 } : AggregateComparison).costPerUnit) :=
  c3_floor_division_quantity.1 c3Catalog 10000000 (1000001 / 100) "Global" c3Rows
    (by
      simp [getAggregateComparisons, aggCosts, activeRegionCostsTop6, validateRegion,
        VALID_REGIONS, c3Catalog, c3Rows, sortByDisplayOrder, insertByOrder,
        usableWealthUSD, usableWealthMillions, jsMax0, quantityFor, jsFloor]
      norm_num)
    _ (by simp [c3Rows])

/-- Concrete catalog for C4: a single active cost in region United States and
no active Global cost at all. -/
def c4Catalog : List ComparisonCost :=
  [{ id := 7, display_name := "x", cost := 100, unit := "u", description := "d",
     region := "United States", category := "cat", active := true,
     display_order := 1 }]

/-- C4 counterexample: the default region Global has zero active entries in
c4Catalog, yet requesting the recognized region United States succeeds with
its own entries, so the clause that the call fails whenever the default
region has zero active entries is false as stated. -/
theorem c4_counterexample :
    c4Catalog.filter (fun c => c.active && c.region == "Global") = [] ∧
      activeRegionCostsTop6 c4Catalog "Global" = [] ∧
      getAggregateComparisons c4Catalog 0 100 "United States" =
        Except.ok [{ displayName := "x", quantity := 1000000, unit := "u",
                     description := "d", costPerUnit := 100 }] := by
  refine ⟨by simp [c4Catalog], by simp [activeRegionCostsTop6, c4Catalog,
    sortByDisplayOrder], ?_⟩
  simp [getAggregateComparisons, aggCosts, activeRegionCostsTop6, validateRegion,
    VALID_REGIONS, c4Catalog, sortByDisplayOrder, insertByOrder,
    usableWealthUSD, usableWealthMillions, jsMax0, quantityFor, jsFloor]

/-- An unrecognized region validates to Global. -/
theorem validateRegion_of_not_contains {region : String}
    (h : VALID_REGIONS.contains region = false) : validateRegion region = "Global" := by
  unfold validateRegion
  rw [h]
  simp

/-- A recognized region validates to itself. -/
theorem validateRegion_of_contains {region : String}
    (h : VALID_REGIONS.contains region = true) : validateRegion region = region := by
  unfold validateRegion
  rw [h]
  simp

/-- Unfolding equation of aggCosts. -/
theorem aggCosts_eq (catalog : List ComparisonCost) (region : String) :
    aggCosts catalog region =
      if ((activeRegionCostsTop6 catalog (validateRegion region)).isEmpty &&
          (validateRegion region != "Global")) = true then
        activeRegionCostsTop6 catalog "Global"
      else activeRegionCostsTop6 catalog (validateRegion region) := rfl

/-- The result of getAggregateComparisons is a function of the aggregated
cost list. -/
theorem getAggregateComparisons_congr (catalog : List ComparisonCost)
    (t : Int) (w : ℚ) (r1 r2 : String) (h : aggCosts catalog r1 = aggCosts catalog r2) :
    getAggregateComparisons catalog t w r1 = getAggregateComparisons catalog t w r2 := by
  unfold getAggregateComparisons
  rw [h]

/-- C4 amended: an unrecognized region yields the same result as Global; a
recognized region whose active catalog is empty falls back once to the
result of Global; when the active catalogs of both the default region and
the validated requested region are empty the call fails with the
EmptyCatalog error; and a successful result is never empty. -/
theorem c4_region_resolution :
    (∀ catalog t w region, VALID_REGIONS.contains region = false →
      getAggregateComparisons catalog t w region =
        getAggregateComparisons catalog t w "Global") ∧
      (∀ catalog t w region, VALID_REGIONS.contains region = true →
        activeRegionCostsTop6 catalog region = [] →
        getAggregateComparisons catalog t w region =
          getAggregateComparisons catalog t w "Global") ∧
      (∀ catalog t w region,
        activeRegionCostsTop6 catalog "Global" = [] →
        activeRegionCostsTop6 catalog (validateRegion region) = [] →
        getAggregateComparisons catalog t w region = Except.error emptyCatalogError) ∧
      (∀ catalog t w region rows,
        getAggregateComparisons catalog t w region = Except.ok rows → rows ≠ []) := by
  have hvalG : validateRegion "Global" = "Global" := by decide
  refine ⟨?_, ?_, ?_, ?_⟩
  · intro catalog t w region h
    apply getAggregateComparisons_congr
    rw [aggCosts_eq, aggCosts_eq, validateRegion_of_not_contains h, hvalG]
  · intro catalog t w region hin hemp
    by_cases hG : region = "Global"
    · rw [hG]
    · apply getAggregateComparisons_congr
      have hb : (region != "Global") = true := bne_iff_ne.mpr hG
      simp [aggCosts_eq, validateRegion_of_contains hin, hvalG, hemp, hb]
  · intro catalog t w region hG hreg
    have hcosts : aggCosts catalog region = [] := by
      by_cases hv : validateRegion region = "Global"
      · rw [hv] at hreg
        simp [aggCosts_eq, hv, hreg]
      · have hb : (validateRegion region != "Global") = true := bne_iff_ne.mpr hv
        simp [aggCosts_eq, hreg, hb, hG]
    unfold getAggregateComparisons
    rw [hcosts]
    rfl
  · intro catalog t w region rows hok
    unfold getAggregateComparisons at hok
    by_cases he : (aggCosts catalog region).isEmpty
    · simp only [he, if_true] at hok
      cases hok
    · simp only [he, Bool.false_eq_true, if_false, Except.ok.injEq] at hok
      subst hok
      intro hnil
      rw [List.map_eq_nil_iff] at hnil
      rw [hnil] at he
      exact he rfl

/-- Witness for C4: the unrecognized region Atlantis resolves like Global,
and an all-inactive catalog makes the call fail for the region Global. -/
theorem c4_region_resolution_witness :
    getAggregateComparisons c4Catalog 0 100 "Atlantis" =
        getAggregateComparisons c4Catalog 0 100 "Global" ∧
      getAggregateComparisons ([] : List ComparisonCost) 0 100 "Global" =
        Except.error emptyCatalogError :=
  ⟨c4_region_resolution.1 c4Catalog 0 100 "Atlantis" (by decide),
   c4_region_resolution.2.2.1 ([] : List ComparisonCost) 0 100 "Global"
     (by decide) (by decide)⟩

/-- Characterization of the rows upserted by the double loop of
calculateAndStoreComparisons. -/
theorem mem_comparisonsWritten {t : Int} {pairs : List (Nat × Int)}
    {costs : List ComparisonCost} {day : Int} {r : CalculatedComparison} :
    r ∈ comparisonsWritten t pairs costs day ↔
      ∃ p ∈ pairs, ∃ c ∈ costs,
        0 < quantityFor (usableWealthMillions (p.2 : ℚ) t * 1000000) c.cost ∧
          r = { billionaire_id := p.1, comparison_cost_id := c.id,
                calculation_date := day,
                net_worth_used := usableWealthMillions (p.2 : ℚ) t,
                quantity :=
                  quantityFor (usableWealthMillions (p.2 : ℚ) t * 1000000) c.cost } := by
  unfold comparisonsWritten
  simp only [List.mem_flatMap, List.mem_filterMap, Option.ite_none_right_eq_some,
    Option.some.injEq]
  constructor
  · rintro ⟨p, hp, c, hc, hq, rfl⟩
    exact ⟨p, hp, c, hc, hq, rfl⟩
  · rintro ⟨p, hp, c, hc, hq, rfl⟩
    exact ⟨p, hp, c, hc, hq, rfl⟩

/-- C6: no zero-quantity row is persisted by bulk pre-computation, a row is
persisted for every pair with a positive quantity, a net worth at or below
the living-reserve threshold clamps usable wealth to zero, zero usable
wealth makes every quantity zero, and an entity all of whose joined pairs
have zero usable wealth gets no persisted row at all. -/
theorem c6_zero_quantity_storage_skip :
    (∀ (t : Int) (ids : List Nat) (catalog : List ComparisonCost)
        (snaps : List Snapshot) (day : Int),
      ∀ r ∈ calculateAndStoreComparisons t ids catalog snaps day, 0 < r.quantity) ∧
      (∀ (t : Int) (pairs : List (Nat × Int)) (costs : List ComparisonCost)
          (day : Int), ∀ p ∈ pairs, ∀ c ∈ costs,
        0 < quantityFor (usableWealthMillions (p.2 : ℚ) t * 1000000) c.cost →
          ({ billionaire_id := p.1, comparison_cost_id := c.id,
             calculation_date := day,
             net_worth_used := usableWealthMillions (p.2 : ℚ) t,
             quantity :=
               quantityFor (usableWealthMillions (p.2 : ℚ) t * 1000000) c.cost } :
            CalculatedComparison) ∈ comparisonsWritten t pairs costs day) ∧
      (∀ (w t : Int), (w : ℚ) ≤ (t : ℚ) / 1000000 →
        usableWealthMillions (w : ℚ) t = 0) ∧
      (∀ c : ℚ, quantityFor ((0 : ℚ) * 1000000) c = 0) ∧
      (∀ (t : Int) (pairs : List (Nat × Int)) (costs : List ComparisonCost)
          (day : Int) (i : Nat),
        (∀ w, (i, w) ∈ pairs → usableWealthMillions (w : ℚ) t = 0) →
          ∀ r ∈ comparisonsWritten t pairs costs day, r.billionaire_id ≠ i) := by
  have hq0 : ∀ c : ℚ, quantityFor ((0 : ℚ) * 1000000) c = 0 := by
    intro c
    simp [quantityFor, jsFloor]
  refine ⟨?_, ?_, ?_, hq0, ?_⟩
  · intro t ids catalog snaps day r hr
    unfold calculateAndStoreComparisons at hr
    obtain ⟨p, _, c, _, hq, rfl⟩ := mem_comparisonsWritten.mp hr
    exact hq
  · intro t pairs costs day p hp c hc hq
    exact mem_comparisonsWritten.mpr ⟨p, hp, c, hc, hq, rfl⟩
  · intro w t h
    unfold usableWealthMillions jsMax0
    rw [max_eq_left]
    linarith
  · intro t pairs costs day i hzero r hr
    obtain ⟨p, hp, c, _, hq, rfl⟩ := mem_comparisonsWritten.mp hr
    intro hid
    simp only at hid
    have hple : usableWealthMillions (p.2 : ℚ) t = 0 := by
      apply hzero p.2
      rw [← hid]
      exact hp
    rw [hple, hq0 c.cost] at hq
    exact lt_irrefl 0 hq

/-- Concrete cost row for the C6 witness. -/
def c6Cost : ComparisonCost :=
  { id := 7, display_name := "x", cost := 100, unit := "u", description := "d",
    region := "Global", category := "cat", active := true, display_order := 1 }

/-- Witness for C6 at a concrete store: one entity above the reserve gets its
positive row, an entity at the reserve clamps to zero usable wealth. -/
theorem c6_zero_quantity_storage_skip_witness :
    ({ billionaire_id := 1, comparison_cost_id := c6Cost.id, calculation_date := 2,
       net_worth_used := usableWealthMillions ((200 : Int) : ℚ) 0,
       quantity :=
         quantityFor (usableWealthMillions ((200 : Int) : ℚ) 0 * 1000000)
           c6Cost.cost } : CalculatedComparison) ∈
        comparisonsWritten 0 [(1, 200)] [c6Cost] 2 ∧
      usableWealthMillions ((0 : Int) : ℚ) 0 = 0 :=
  ⟨c6_zero_quantity_storage_skip.2.1 0 [(1, 200)] [c6Cost] 2 (1, 200)
      (by simp) c6Cost (by simp)
      (by
        simp [c6Cost, usableWealthMillions, jsMax0, quantityFor, jsFloor]
        norm_num),
   c6_zero_quantity_storage_skip.2.2.1 0 0 (by norm_num)⟩

/-- latestSnapshot returns none exactly when the billionaire has no snapshot. -/
theorem latestSnapshot_eq_none {snaps : List Snapshot} {b : Nat} :
    latestSnapshot snaps b = none ↔ ∀ t ∈ snaps, t.billionaire_id ≠ b := by
  induction snaps with
  | nil => simp [latestSnapshot]
  | cons x rest ih =>
      unfold latestSnapshot
      by_cases hx : (x.billionaire_id == b) = true
      · rw [if_pos hx]
        have hxb : x.billionaire_id = b := beq_iff_eq.mp hx
        cases hr : latestSnapshot rest b with
        | none => simp [hxb]
        | some t0 =>
            constructor
            · intro hcon
              dsimp only at hcon
              by_cases hl2 : x.snapshot_date < t0.snapshot_date
              · rw [if_pos hl2] at hcon
                cases hcon
              · rw [if_neg hl2] at hcon
                cases hcon
            · intro hall
              exact absurd hxb (hall x (List.mem_cons_self _ _))
      · rw [if_neg hx]
        have hxb : x.billionaire_id ≠ b := by
          intro he
          exact hx (beq_iff_eq.mpr he)
        simp [ih, hxb]

/-- latestSnapshot returns a snapshot of the billionaire that is in the store
and has the maximal snapshot date among the snapshots of that billionaire. -/
theorem latestSnapshot_spec {snaps : List Snapshot} {b : Nat} {s : Snapshot}
    (h : latestSnapshot snaps b = some s) :
    s ∈ snaps ∧ s.billionaire_id = b ∧
      ∀ t ∈ snaps, t.billionaire_id = b → t.snapshot_date ≤ s.snapshot_date := by
  induction snaps generalizing s with
  | nil => cases h
  | cons x rest ih =>
      unfold latestSnapshot at h
      by_cases hx : (x.billionaire_id == b) = true
      · rw [if_pos hx] at h
        have hxb : x.billionaire_id = b := beq_iff_eq.mp hx
        cases hr : latestSnapshot rest b with
        | none =>
            rw [hr] at h
            have hs : s = x := by
              cases h
              rfl
            subst hs
            refine ⟨List.mem_cons_self _ _, hxb, ?_⟩
            intro t ht htb
            rcases List.mem_cons.mp ht with rfl | ht
            · exact le_refl _
            · exact absurd htb (latestSnapshot_eq_none.mp hr t ht)
        | some t0 =>
            rw [hr] at h
            dsimp only at h
            obtain ⟨ht0mem, ht0b, ht0max⟩ := ih hr
            by_cases hlt : x.snapshot_date < t0.snapshot_date
            · rw [if_pos hlt] at h
              have hs : s = t0 := by
                cases h
                rfl
              subst hs
              refine ⟨List.mem_cons_of_mem _ ht0mem, ht0b, ?_⟩
              intro t ht htb
              rcases List.mem_cons.mp ht with rfl | ht
              · exact le_of_lt hlt
              · exact ht0max t ht htb
            · rw [if_neg hlt] at h
              have hs : s = x := by
                cases h
                rfl
              subst hs
              refine ⟨List.mem_cons_self _ _, hxb, ?_⟩
              intro t ht htb
              rcases List.mem_cons.mp ht with rfl | ht
              · exact le_refl _
              · exact le_trans (ht0max t ht htb) (le_of_not_lt hlt)
      · rw [if_neg hx] at h
        have hxb : x.billionaire_id ≠ b := by
          intro he
          exact hx (beq_iff_eq.mpr he)
        obtain ⟨hmem, hb, hmax⟩ := ih h
        refine ⟨List.mem_cons_of_mem _ hmem, hb, ?_⟩
        intro t ht htb
        rcases List.mem_cons.mp ht with rfl | ht
        · exact absurd htb hxb
        · exact hmax t ht htb

/-- Membership in the join of calculateAndStoreComparisons. -/
theorem mem_billionairesWithLatest {ids : List Nat} {snaps : List Snapshot}
    {i : Nat} {w : Int} :
    (i, w) ∈ billionairesWithLatest ids snaps ↔
      i ∈ ids ∧ ∃ s, latestSnapshot snaps i = some s ∧ w = s.net_worth := by
  unfold billionairesWithLatest
  simp only [List.mem_filterMap, Option.map_eq_some']
  constructor
  · rintro ⟨j, hj, s, hs, heq⟩
    have hji : j = i := congrArg Prod.fst heq
    have hwn : s.net_worth = w := congrArg Prod.snd heq
    subst hji
    exact ⟨hj, s, hs, hwn.symm⟩
  · rintro ⟨hi, s, hs, rfl⟩
    exact ⟨i, hi, s, hs, rfl⟩

/-- The snapshot selection the spec describes for bulk pre-computation: the
most recent snapshot dated at or before the calculation day. -/
def latestSnapshotOnOrBefore (snaps : List Snapshot) (day : Int) (b : Nat) :
    Option Snapshot :=
  latestSnapshot (snaps.filter (fun s => decide (s.snapshot_date ≤ day))) b

/-- Concrete cost row for C5. -/
def c5Cost : ComparisonCost :=
  { id := 9, display_name := "y", cost := 100, unit := "u", description := "d",
    region := "Global", category := "cat", active := true, display_order := 1 }

/-- Concrete store for C5: entity 1 with snapshots on day 1 (worth 100) and
day 5 (worth 200). -/
def c5Snaps : List Snapshot :=
  [{ billionaire_id := 1, snapshot_date := 1, net_worth := 100, rank := some 1,
     daily_change := none, data_source_id := none },
   { billionaire_id := 1, snapshot_date := 5, net_worth := 200, rank := some 1,
     daily_change := none, data_source_id := none }]

/-- C5 counterexample: running bulk pre-computation for calculation day 2
over c5Snaps upserts a row whose wealth input is 200, the net worth of the
day-5 snapshot dated after the calculation day, while the most recent
snapshot at or before day 2 has net worth 100. -/
theorem c5_counterexample :
    calculateAndStoreComparisons 0 [1] [c5Cost] c5Snaps 2 =
        [{ billionaire_id := 1, comparison_cost_id := 9, calculation_date := 2,
           net_worth_used := 200, quantity := 2000000 }] ∧
      (latestSnapshotOnOrBefore c5Snaps 2 1).map (fun s => s.net_worth) =
        some 100 ∧
      (200 : ℚ) ≠ ((100 : Int) : ℚ) := by
  refine ⟨?_, ?_, by norm_num⟩
  · simp [calculateAndStoreComparisons, comparisonsWritten, billionairesWithLatest,
      latestSnapshot, c5Snaps, c5Cost, usableWealthMillions, jsMax0, quantityFor,
      jsFloor, List.filterMap_cons]
    norm_num
  · simp [latestSnapshotOnOrBefore, latestSnapshot, c5Snaps]

/-- C5 amended: bulk pre-computation covers exactly the entities having at
least one snapshot of any date; for each covered entity the wealth input of
every row upserted for the calculation day is the net worth of that entity's
most recent snapshot overall, with no restriction to snapshots at or before
the calculation day; each upserted row carries the calculation day as its
date. -/
theorem c5_bulk_snapshot_selection :
    (∀ (ids : List Nat) (snaps : List Snapshot) (i : Nat),
      (∃ w, (i, w) ∈ billionairesWithLatest ids snaps) ↔
        (i ∈ ids ∧ ∃ s ∈ snaps, s.billionaire_id = i)) ∧
      (∀ (ids : List Nat) (snaps : List Snapshot) (i : Nat) (w : Int),
        (i, w) ∈ billionairesWithLatest ids snaps →
          ∃ s, latestSnapshot snaps i = some s ∧ w = s.net_worth ∧ s ∈ snaps ∧
            s.billionaire_id = i ∧
            ∀ u ∈ snaps, u.billionaire_id = i →
              u.snapshot_date ≤ s.snapshot_date) ∧
      (∀ (t : Int) (ids : List Nat) (catalog : List ComparisonCost)
          (snaps : List Snapshot) (day : Int),
        ∀ r ∈ calculateAndStoreComparisons t ids catalog snaps day,
          r.calculation_date = day ∧
            ∃ p ∈ billionairesWithLatest ids snaps,
              r.billionaire_id = p.1 ∧
                r.net_worth_used = usableWealthMillions (p.2 : ℚ) t) := by
  refine ⟨?_, ?_, ?_⟩
  · intro ids snaps i
    constructor
    · rintro ⟨w, hw⟩
      obtain ⟨hi, s, hs, rfl⟩ := mem_billionairesWithLatest.mp hw
      obtain ⟨hmem, hb, _⟩ := latestSnapshot_spec hs
      exact ⟨hi, s, hmem, hb⟩
    · rintro ⟨hi, s, hmem, hb⟩
      cases hl : latestSnapshot snaps i with
      | none => exact absurd hb (latestSnapshot_eq_none.mp hl s hmem)
      | some s0 =>
          exact ⟨s0.net_worth, mem_billionairesWithLatest.mpr ⟨hi, s0, hl, rfl⟩⟩
  · intro ids snaps i w hw
    obtain ⟨hi, s, hs, rfl⟩ := mem_billionairesWithLatest.mp hw
    obtain ⟨hmem, hb, hmax⟩ := latestSnapshot_spec hs
    exact ⟨s, hs, rfl, hmem, hb, hmax⟩
  · intro t ids catalog snaps day r hr
    unfold calculateAndStoreComparisons at hr
    obtain ⟨p, hp, c, _, _, rfl⟩ := mem_comparisonsWritten.mp hr
    exact ⟨rfl, p, hp, rfl, rfl⟩

/-- Witness for C5: applying the amended theorem at the concrete store shows
the wealth used for entity 1 is the overall latest worth 200. -/
theorem c5_bulk_snapshot_selection_witness :
    (latestSnapshot c5Snaps 1).map (fun s => s.net_worth) = some 200 := by
  obtain ⟨s, hs, hw, _⟩ := c5_bulk_snapshot_selection.2.1 [1] c5Snaps 1 200
    (by simp [billionairesWithLatest, latestSnapshot, c5Snaps])
  rw [hs]
  simp [hw]

/-- In a list whose image under f has no duplicates, f is injective on the
members of the list. -/
theorem nodup_map_inj {α β : Type} (f : α → β) :
    ∀ l : List α, (l.map f).Nodup → ∀ a ∈ l, ∀ b ∈ l, f a = f b → a = b := by
  intro l
  induction l with
  | nil => intro _ a ha; cases ha
  | cons x rest ih =>
      intro hl a ha b hb hfab
      rw [List.map_cons, List.nodup_cons] at hl
      rcases List.mem_cons.mp ha with rfl | ha2
      · rcases List.mem_cons.mp hb with rfl | hb2
        · rfl
        · exact absurd (hfab ▸ List.mem_map_of_mem f hb2) hl.1
      · rcases List.mem_cons.mp hb with rfl | hb2
        · exact absurd (hfab ▸ List.mem_map_of_mem f ha2) hl.1
        · exact ih hl.2 a ha2 b hb2 hfab

/-- Every snapshot date is bounded by the global maximum snapshot date. -/
theorem le_maxSnapshotDate {snaps : List Snapshot} {d : Int}
    (h : maxSnapshotDate snaps = some d) :
    ∀ s ∈ snaps, s.snapshot_date ≤ d := by
  intro s hs
  unfold maxSnapshotDate at h
  exact (List.max?_le_iff (fun a b c => max_le_iff) h).mp (le_refl d) _
    (List.mem_map_of_mem _ hs)

/-- The aggregation described by the claim for C9: over the entities whose
own latest snapshot has a non-null rank at most 50, sum those
latest-snapshot net worths and count them. -/
def specTopEntitiesTotals (ids : List Nat) (snaps : List Snapshot) : Int × Nat :=
  let sel := (ids.filterMap (fun i => latestSnapshot snaps i)).filter rankTop50
  (sel.foldl (fun t s => t + s.net_worth) 0, sel.length)

/-- Concrete store for C9: entity 1 has its only snapshot on day 1 at rank 1
worth 100; entity 2 has its only snapshot on day 2 at rank 1 worth 50. -/
def c9Snaps : List Snapshot :=
  [{ billionaire_id := 1, snapshot_date := 1, net_worth := 100, rank := some 1,
     daily_change := none, data_source_id := none },
   { billionaire_id := 2, snapshot_date := 2, net_worth := 50, rank := some 1,
     daily_change := none, data_source_id := none }]

/-- C9 counterexample: getAggregateStats sums only the snapshots dated at the
single most recent snapshot date of the whole table, so entity 1, whose
latest snapshot is older than the global maximum date, is excluded: the code
returns total 50 and count 1 while the claim describes total 150 and
count 2. -/
theorem c9_counterexample :
    getAggregateStatsTotals c9Snaps = (50, 1) ∧
      specTopEntitiesTotals [1, 2] c9Snaps = (150, 2) ∧
      ((50 : Int), (1 : Nat)) ≠ ((150 : Int), (2 : Nat)) := by decide

/-- C9 amended: the fleet statistics are the sum and count over the snapshot
rows dated at the globally most recent snapshot date whose rank is non-null
and at most 50; under the snapshot uniqueness invariant every row in that
selection is its own entity's most recent snapshot, but entities whose most
recent snapshot is older than the global maximum date are excluded. -/
theorem c9_aggregate_stats_totals :
    (∀ snaps : List Snapshot,
      getAggregateStatsTotals snaps =
        ((aggregateStatsRows snaps).foldl (fun t s => t + s.net_worth) 0,
          (aggregateStatsRows snaps).length)) ∧
      (∀ snaps : List Snapshot, snapKeysNodup snaps →
        ∀ s ∈ aggregateStatsRows snaps,
          latestSnapshot snaps s.billionaire_id = some s ∧ rankTop50 s = true) := by
  refine ⟨fun snaps => rfl, ?_⟩
  intro snaps hnodup s hs
  unfold aggregateStatsRows at hs
  cases hmax : maxSnapshotDate snaps with
  | none =>
      rw [hmax] at hs
      cases hs
  | some d =>
      rw [hmax] at hs
      obtain ⟨hsmem, hpred⟩ := List.mem_filter.mp hs
      rw [Bool.and_eq_true] at hpred
      have hdate : s.snapshot_date = d := by
        have := hpred.1
        exact beq_iff_eq.mp this
      have hrank : rankTop50 s = true := hpred.2
      cases hl : latestSnapshot snaps s.billionaire_id with
      | none => exact absurd rfl (latestSnapshot_eq_none.mp hl s hsmem)
      | some t =>
          obtain ⟨htmem, htb, htmax⟩ := latestSnapshot_spec hl
          have h1 : t.snapshot_date ≤ d := le_maxSnapshotDate hmax t htmem
          have h2 : s.snapshot_date ≤ t.snapshot_date := htmax s hsmem rfl
          have hdeq : Snapshot.key t = Snapshot.key s := by
            unfold Snapshot.key
            rw [htb, le_antisymm (hdate ▸ h1) h2, hdate]
          have hts : t = s := nodup_map_inj Snapshot.key snaps hnodup t htmem s hsmem hdeq
          subst hts
          exact ⟨rfl, hrank⟩

/-- Witness for C9 at the concrete store: the selected day-2 row of entity 2
is its own latest snapshot with rank within the top 50. -/
theorem c9_aggregate_stats_totals_witness :
    latestSnapshot c9Snaps 2 =
        some { billionaire_id := 2, snapshot_date := 2, net_worth := 50,
               rank := some 1, daily_change := none, data_source_id := none } ∧
      rankTop50 { billionaire_id := 2, snapshot_date := 2, net_worth := 50,
                  rank := some 1, daily_change := none,
                  data_source_id := none } = true :=
  c9_aggregate_stats_totals.2 c9Snaps
    (by unfold snapKeysNodup; decide)
    { billionaire_id := 2, snapshot_date := 2, net_worth := 50, rank := some 1,
      daily_change := none, data_source_id := none } (by decide)

/-- Inserting by date is a permutation of consing. -/
theorem insertByDate_perm (r : HistoryRow) (l : List HistoryRow) :
    (insertByDate r l).Perm (r :: l) := by
  induction l with
  | nil => exact List.Perm.refl _
  | cons s ss ih =>
      unfold insertByDate
      by_cases h : r.snapshot_date ≤ s.snapshot_date
      · rw [if_pos h]
      · rw [if_neg h]
        exact (List.Perm.cons s ih).trans (List.Perm.swap r s ss)

/-- Sorting the history is a permutation. -/
theorem sortHistAsc_perm (l : List HistoryRow) : (sortHistAsc l).Perm l := by
  induction l with
  | nil => exact List.Perm.refl _
  | cons x xs ih =>
      exact (insertByDate_perm x (sortHistAsc xs)).trans (List.Perm.cons x ih)

/-- Inserting by date preserves sortedness by date. -/
theorem insertByDate_pairwise (r : HistoryRow) (l : List HistoryRow)
    (hl : l.Pairwise (fun a b => a.snapshot_date ≤ b.snapshot_date)) :
    (insertByDate r l).Pairwise (fun a b => a.snapshot_date ≤ b.snapshot_date) := by
  induction l with
  | nil => simp [insertByDate]
  | cons s ss ih =>
      rw [List.pairwise_cons] at hl
      unfold insertByDate
      by_cases h : r.snapshot_date ≤ s.snapshot_date
      · rw [if_pos h]
        rw [List.pairwise_cons]
        refine ⟨?_, List.pairwise_cons.mpr hl⟩
        intro t ht
        rcases List.mem_cons.mp ht with rfl | ht
        · exact h
        · exact le_trans h (hl.1 t ht)
      · rw [if_neg h]
        rw [List.pairwise_cons]
        refine ⟨?_, ih hl.2⟩
        intro t ht
        rcases List.mem_cons.mp ((insertByDate_perm r ss).mem_iff.mp ht) with rfl | ht2
        · exact le_of_not_le h
        · exact hl.1 t ht2

/-- The sorted history is sorted by date. -/
theorem sortHistAsc_pairwise (l : List HistoryRow) :
    (sortHistAsc l).Pairwise (fun a b => a.snapshot_date ≤ b.snapshot_date) := by
  induction l with
  | nil => exact List.Pairwise.nil
  | cons x xs ih => exact insertByDate_pairwise x (sortHistAsc xs) ih

/-- For an integral days value the rational range condition of the history
query is the integer range condition. -/
theorem historyFilter_int (store : List Snapshot) (today : Int) (bId : Nat)
    (d : Int) :
    historyFilter store today bId (d : ℚ) =
      store.filter (fun s =>
        s.billionaire_id == bId && decide (today - d ≤ s.snapshot_date)) := by
  unfold historyFilter
  congr 1
  funext s
  congr 1
  rw [decide_eq_decide]
  have hc : ((today : ℚ) - (d : ℚ)) = ((today - d : Int) : ℚ) := by
    push_cast
    ring
  rw [hc]
  exact_mod_cast Iff.rfl

/-- Distinct snapshot keys of a single billionaire have distinct dates. -/
theorem dates_nodup_of_keys {b : Nat} :
    ∀ {l : List Snapshot}, (l.map Snapshot.key).Nodup →
      (∀ s ∈ l, s.billionaire_id = b) →
      (l.map (fun s => s.snapshot_date)).Nodup := by
  intro l
  induction l with
  | nil => intro _ _; exact List.Pairwise.nil
  | cons x rest ih =>
      intro hk hb
      rw [List.map_cons, List.nodup_cons] at hk ⊢
      refine ⟨?_, ih hk.2 (fun s hs => hb s (List.mem_cons_of_mem _ hs))⟩
      intro hmem
      obtain ⟨y, hy, hdy⟩ := List.mem_map.mp hmem
      apply hk.1
      have hkey : Snapshot.key y = Snapshot.key x := by
        unfold Snapshot.key
        rw [hb y (List.mem_cons_of_mem _ hy), hb x (List.mem_cons_self _ _), hdy]
      rw [← hkey]
      exact List.mem_map_of_mem _ hy

/-- A list of snapshots of one billionaire with pairwise-distinct keys and
dates inside a closed integer interval is no longer than the interval. -/
theorem length_le_card_of_dates {l : List Snapshot} {lo hi : Int}
    (hnd : (l.map (fun s => s.snapshot_date)).Nodup)
    (hmem : ∀ s ∈ l, s.snapshot_date ∈ Finset.Icc lo hi) :
    l.length ≤ (hi + 1 - lo).toNat := by
  have h1 : (l.map (fun s => s.snapshot_date)).toFinset.card =
      (l.map (fun s => s.snapshot_date)).length :=
    List.toFinset_card_of_nodup hnd
  have h2 : (l.map (fun s => s.snapshot_date)).toFinset ⊆ Finset.Icc lo hi := by
    intro d hd
    obtain ⟨s, hs, rfl⟩ := List.mem_map.mp (List.mem_toFinset.mp hd)
    exact hmem s hs
  calc l.length = (l.map (fun s => s.snapshot_date)).length := (List.length_map _ _).symm
    _ = (l.map (fun s => s.snapshot_date)).toFinset.card := h1.symm
    _ ≤ (Finset.Icc lo hi).card := Finset.card_le_card h2
    _ = (hi + 1 - lo).toNat := Int.card_Icc lo hi

/-- Concrete store for C8: billionaire 1 has one snapshot per day on days 0
through 30, with day 30 as today. -/
def hist31Store : List Snapshot :=
  (List.range 31).map (fun i =>
    { billionaire_id := 1, snapshot_date := (i : Int), net_worth := 100,
      rank := none, daily_change := none, data_source_id := none })

/-- The 31 history rows the query returns over hist31Store. -/
def hist31Rows : List HistoryRow :=
  (List.range 31).map (fun i =>
    { snapshot_date := (i : Int), net_worth := 100, rank := none })

/-- The days value 30 passes the validation of getBillionaireHistory. -/
theorem days30_valid : ¬ (¬ jsIsInteger (30 : ℚ) ∨ (30 : ℚ) < 1 ∨ (30 : ℚ) > 365) := by
  have hden : (30 : ℚ).den = 1 := by norm_num
  have h1 : jsIsInteger (30 : ℚ) = true := by
    unfold jsIsInteger
    rw [hden]
    rfl
  intro hcon
  rcases hcon with h | h | h
  · rw [h1] at h
    exact h rfl
  · norm_num at h
  · norm_num at h

/-- C8 counterexample: with one snapshot per day for the 31 calendar days
from day 0 through today (day 30), the range query for days = 30 returns 31
rows, because snapshot_date at or after today minus 30 days spans 31 days
inclusive; the claim says at most 30 rows. -/
theorem c8_counterexample :
    getBillionaireHistory hist31Store 30 1 30 = Except.ok hist31Rows ∧
      hist31Rows.length = 31 := by
  constructor
  · unfold getBillionaireHistory
    rw [if_neg days30_valid]
    have hcast : (30 : ℚ) = ((30 : Int) : ℚ) := by norm_num
    rw [hcast, historyFilter_int]
    rw [Except.ok.injEq]
    decide
  · decide

/-- C8 amended: a non-integer, below-1 or above-365 days value is rejected
with an error independently of the store, so before any query executes; a
successful result is ordered ascending by snapshot date; and for days = 30,
under the snapshot uniqueness invariant and with no snapshot dated after
today, at most 31 rows are returned (the 31 calendar days from today minus
30 through today, not 30). -/
theorem c8_history_day_validation :
    (∀ (store : List Snapshot) (today : Int) (bId : Nat) (days : ℚ),
      jsIsInteger days = false ∨ days < 1 ∨ days > 365 →
        getBillionaireHistory store today bId days =
          Except.error invalidDaysError) ∧
      (∀ (store : List Snapshot) (today : Int) (bId : Nat) (days : ℚ)
          (rows : List HistoryRow),
        getBillionaireHistory store today bId days = Except.ok rows →
          rows.Pairwise (fun a b => a.snapshot_date ≤ b.snapshot_date)) ∧
      (∀ (store : List Snapshot) (today : Int) (bId : Nat)
          (rows : List HistoryRow), snapKeysNodup store →
        (∀ s ∈ store, s.snapshot_date ≤ today) →
        getBillionaireHistory store today bId 30 = Except.ok rows →
        rows.length ≤ 31) := by
  refine ⟨?_, ?_, ?_⟩
  · intro store today bId days h
    unfold getBillionaireHistory
    rw [if_pos]
    rcases h with h | h | h
    · exact Or.inl (by simp [h])
    · exact Or.inr (Or.inl h)
    · exact Or.inr (Or.inr h)
  · intro store today bId days rows hok
    unfold getBillionaireHistory at hok
    by_cases hc : ¬ jsIsInteger days ∨ days < 1 ∨ days > 365
    · rw [if_pos hc] at hok
      cases hok
    · rw [if_neg hc] at hok
      injection hok with h
      rw [← h]
      exact sortHistAsc_pairwise _
  · intro store today bId rows hnodup hle hok
    unfold getBillionaireHistory at hok
    rw [if_neg days30_valid] at hok
    have hcast : (30 : ℚ) = ((30 : Int) : ℚ) := by norm_num
    rw [hcast, historyFilter_int] at hok
    injection hok with h
    have hlen : rows.length =
        (store.filter (fun s =>
          s.billionaire_id == bId && decide (today - 30 ≤ s.snapshot_date))).length := by
      rw [← h, (sortHistAsc_perm _).length_eq, List.length_map]
    rw [hlen]
    have hkeys : ((store.filter (fun s =>
        s.billionaire_id == bId && decide (today - 30 ≤ s.snapshot_date))).map
          Snapshot.key).Nodup :=
      List.Nodup.sublist (List.Sublist.map Snapshot.key (List.filter_sublist store))
        hnodup
    have hball : ∀ s ∈ store.filter (fun s =>
        s.billionaire_id == bId && decide (today - 30 ≤ s.snapshot_date)),
        s.billionaire_id = bId := by
      intro s hs
      have := (List.mem_filter.mp hs).2
      rw [Bool.and_eq_true] at this
      exact beq_iff_eq.mp this.1
    have hicc : ∀ s ∈ store.filter (fun s =>
        s.billionaire_id == bId && decide (today - 30 ≤ s.snapshot_date)),
        s.snapshot_date ∈ Finset.Icc (today - 30) today := by
      intro s hs
      obtain ⟨hsmem, hcond⟩ := List.mem_filter.mp hs
      rw [Bool.and_eq_true] at hcond
      rw [Finset.mem_Icc]
      exact ⟨of_decide_eq_true hcond.2, hle s hsmem⟩
    have := length_le_card_of_dates (dates_nodup_of_keys hkeys hball) hicc
    have h31 : (today + 1 - (today - 30)).toNat = 31 := by omega
    rw [h31] at this
    exact this

/-- Witness for C8: days values 0, 366 and 3.5 are rejected on the empty
store before any query. -/
theorem c8_history_day_validation_witness :
    getBillionaireHistory [] 30 1 0 = Except.error invalidDaysError ∧
      getBillionaireHistory [] 30 1 366 = Except.error invalidDaysError ∧
      getBillionaireHistory [] 30 1 (7 / 2) = Except.error invalidDaysError :=
  ⟨c8_history_day_validation.1 [] 30 1 0 (Or.inr (Or.inl (by norm_num))),
   c8_history_day_validation.1 [] 30 1 366 (Or.inr (Or.inr (by norm_num))),
   c8_history_day_validation.1 [] 30 1 (7 / 2) (Or.inl (by
     have hden : ((7 : ℚ) / 2).den = 2 := by norm_num
     unfold jsIsInteger
     rw [hden]
     rfl))⟩

/-! ## Lemmas on the upsert operations for the idempotence claim -/

/-- The wasCreated flag of upsertBillionaire is true exactly when no row with
the slug existed before the call. -/
theorem upsertBillionaire_wasCreated (es : List Entity) (slug : String)
    (d : EntityData) :
    (upsertBillionaire es slug d).2.2 = true ↔ ∀ e ∈ es, e.slug ≠ slug := by
  unfold upsertBillionaire
  cases hf : es.find? (fun e => e.slug == slug) with
  | some e =>
      simp only [Bool.false_eq_true, false_iff]
      intro hall
      have hmem := List.mem_of_find?_eq_some hf
      have hp := List.find?_some hf
      exact hall e hmem (beq_iff_eq.mp hp)
  | none =>
      simp only [true_iff]
      intro e he hslug
      have := List.find?_eq_none.mp hf e he
      exact this (beq_iff_eq.mpr hslug)

/-- Updating the found row preserves the slug list. -/
theorem upsertBillionaire_slugs_found {es : List Entity} {slug : String}
    {d : EntityData} {e : Entity} (hf : es.find? (fun e => e.slug == slug) = some e) :
    (upsertBillionaire es slug d).1.map (fun e => e.slug) =
      es.map (fun e => e.slug) := by
  unfold upsertBillionaire
  rw [hf]
  simp only [List.map_map]
  apply List.map_congr_left
  intro a _
  simp only [Function.comp_apply]
  split <;> rfl

/-- Inserting a new row appends the slug. -/
theorem upsertBillionaire_slugs_new {es : List Entity} {slug : String}
    {d : EntityData} (hf : es.find? (fun e => e.slug == slug) = none) :
    (upsertBillionaire es slug d).1.map (fun e => e.slug) =
      es.map (fun e => e.slug) ++ [slug] := by
  unfold upsertBillionaire
  rw [hf]
  simp

/-- Upserting preserves slug membership. -/
theorem upsertBillionaire_slug_mono (es : List Entity) (slug : String)
    (d : EntityData) (s : String) (h : s ∈ es.map (fun e => e.slug)) :
    s ∈ (upsertBillionaire es slug d).1.map (fun e => e.slug) := by
  cases hf : es.find? (fun e => e.slug == slug) with
  | some e => rw [upsertBillionaire_slugs_found hf]; exact h
  | none => rw [upsertBillionaire_slugs_new hf]; exact List.mem_append_left _ h

/-- After an upsert, a row with the upserted slug and the returned id is in
the table. -/
theorem upsertBillionaire_present (es : List Entity) (slug : String)
    (d : EntityData) :
    ∃ e ∈ (upsertBillionaire es slug d).1,
      e.slug = slug ∧ e.id = (upsertBillionaire es slug d).2.1 := by
  unfold upsertBillionaire
  cases hf : es.find? (fun e => e.slug == slug) with
  | some e =>
      have hmem := List.mem_of_find?_eq_some hf
      have hp := List.find?_some hf
      refine ⟨{ e with data := d }, ?_, beq_iff_eq.mp hp, rfl⟩
      rw [List.mem_map]
      exact ⟨e, hmem, by rw [if_pos hp]⟩
  | none =>
      exact ⟨{ id := freshId es, slug := slug, data := d },
        List.mem_append_right _ (List.mem_singleton.mpr rfl), rfl, rfl⟩

/-- Upserting preserves every existing row's slug and id (possibly with new
data). -/
theorem upsertBillionaire_id_stable (es : List Entity) (slug : String)
    (d : EntityData) (e : Entity) (he : e ∈ es) :
    ∃ e2 ∈ (upsertBillionaire es slug d).1, e2.slug = e.slug ∧ e2.id = e.id := by
  unfold upsertBillionaire
  cases hf : es.find? (fun e => e.slug == slug) with
  | some e0 =>
      by_cases h : (e.slug == slug) = true
      · refine ⟨{ e with data := d }, ?_, rfl, rfl⟩
        rw [List.mem_map]
        exact ⟨e, he, by rw [if_pos h]⟩
      · refine ⟨e, ?_, rfl, rfl⟩
        rw [List.mem_map]
        exact ⟨e, he, by rw [if_neg h]⟩
  | none => exact ⟨e, List.mem_append_left _ he, rfl, rfl⟩

/-- Upserting preserves slug uniqueness. -/
theorem upsertBillionaire_nodup (es : List Entity) (slug : String)
    (d : EntityData) (h : slugsNodup es) :
    slugsNodup (upsertBillionaire es slug d).1 := by
  unfold slugsNodup at h ⊢
  cases hf : es.find? (fun e => e.slug == slug) with
  | some e => rw [upsertBillionaire_slugs_found hf]; exact h
  | none =>
      rw [upsertBillionaire_slugs_new hf]
      rw [List.nodup_append]
      refine ⟨h, List.nodup_singleton _, ?_⟩
      intro s hs hs1
      rw [List.mem_singleton] at hs1
      subst hs1
      obtain ⟨e, he, hes⟩ := List.mem_map.mp hs
      exact List.find?_eq_none.mp hf e he (beq_iff_eq.mpr hes)

/-- The snapshot keys after insertDailySnapshot. -/
theorem insertDailySnapshot_keys (store : List Snapshot) (bId : Nat) (day : Int)
    (nw : Int) (rank : Option Nat) (dc : Option Int) (ds : Option Nat) :
    ((insertDailySnapshot store bId day nw rank dc ds).map Snapshot.key =
        store.map Snapshot.key ∧ store.any (snapKeyMatches bId day) = true) ∨
      ((insertDailySnapshot store bId day nw rank dc ds).map Snapshot.key =
        store.map Snapshot.key ++ [(bId, day)] ∧
        store.any (snapKeyMatches bId day) = false) := by
  unfold insertDailySnapshot
  by_cases h : store.any (snapKeyMatches bId day) = true
  · left
    rw [if_pos h]
    refine ⟨?_, h⟩
    simp only [List.map_map]
    apply List.map_congr_left
    intro s _
    simp only [Function.comp_apply]
    by_cases hm : snapKeyMatches bId day s = true
    · rw [if_pos hm]
      unfold snapKeyMatches at hm
      rw [Bool.and_eq_true] at hm
      unfold Snapshot.key
      simp only []
      rw [beq_iff_eq.mp hm.1, beq_iff_eq.mp hm.2]
    · rw [if_neg hm]
  · right
    rw [if_neg h]
    refine ⟨?_, by simpa using h⟩
    simp [Snapshot.key]

/-- Inserting a snapshot preserves key membership. -/
theorem insertDailySnapshot_key_mono (store : List Snapshot) (bId : Nat)
    (day : Int) (nw : Int) (rank : Option Nat) (dc : Option Int) (ds : Option Nat)
    (k : Nat × Int) (h : k ∈ store.map Snapshot.key) :
    k ∈ (insertDailySnapshot store bId day nw rank dc ds).map Snapshot.key := by
  rcases insertDailySnapshot_keys store bId day nw rank dc ds with ⟨heq, _⟩ | ⟨heq, _⟩
  · rw [heq]; exact h
  · rw [heq]; exact List.mem_append_left _ h

/-- The inserted key is present after insertDailySnapshot. -/
theorem insertDailySnapshot_key_present (store : List Snapshot) (bId : Nat)
    (day : Int) (nw : Int) (rank : Option Nat) (dc : Option Int)
    (ds : Option Nat) :
    (bId, day) ∈ (insertDailySnapshot store bId day nw rank dc ds).map
      Snapshot.key := by
  unfold insertDailySnapshot
  by_cases h : store.any (snapKeyMatches bId day) = true
  · rw [if_pos h]
    obtain ⟨s, hs, hm⟩ := List.any_eq_true.mp h
    rw [List.map_map, List.mem_map]
    refine ⟨s, hs, ?_⟩
    simp only [Function.comp_apply]
    rw [if_pos hm]
    rfl
  · rw [if_neg h]
    rw [List.map_append]
    exact List.mem_append_right _ (by simp [Snapshot.key])

/-- Inserting a snapshot preserves key uniqueness. -/
theorem insertDailySnapshot_nodup (store : List Snapshot) (bId : Nat) (day : Int)
    (nw : Int) (rank : Option Nat) (dc : Option Int) (ds : Option Nat)
    (h : snapKeysNodup store) :
    snapKeysNodup (insertDailySnapshot store bId day nw rank dc ds) := by
  unfold snapKeysNodup at h ⊢
  rcases insertDailySnapshot_keys store bId day nw rank dc ds with ⟨heq, _⟩ |
    ⟨heq, hany⟩
  · rw [heq]; exact h
  · rw [heq]
    rw [List.nodup_append]
    refine ⟨h, List.nodup_singleton _, ?_⟩
    intro k hk hk1
    rw [List.mem_singleton] at hk1
    subst hk1
    obtain ⟨s, hs, hks⟩ := List.mem_map.mp hk
    have : snapKeyMatches bId day s = true := by
      unfold snapKeyMatches
      unfold Snapshot.key at hks
      rw [Bool.and_eq_true]
      have h1 : s.billionaire_id = bId := congrArg Prod.fst hks
      have h2 : s.snapshot_date = day := congrArg Prod.snd hks
      exact ⟨beq_iff_eq.mpr h1, beq_iff_eq.mpr h2⟩
    rw [List.any_eq_false] at hany
    exact absurd this (by simpa using hany s hs)

/-- One pipeline iteration preserves both uniqueness invariants. -/
theorem processRecord_invariants (st : Store) (today : Int) (dsId : Option Nat)
    (r : InRecord) (h1 : slugsNodup st.entities) (h2 : snapKeysNodup st.snapshots) :
    slugsNodup (processRecord st today dsId r).1.entities ∧
      snapKeysNodup (processRecord st today dsId r).1.snapshots :=
  ⟨upsertBillionaire_nodup _ _ _ h1, insertDailySnapshot_nodup _ _ _ _ _ _ _ h2⟩

/-- One pipeline iteration preserves slug membership. -/
theorem processRecord_slug_mono (st : Store) (today : Int) (dsId : Option Nat)
    (r : InRecord) (s : String) (h : s ∈ st.entities.map (fun e => e.slug)) :
    s ∈ (processRecord st today dsId r).1.entities.map (fun e => e.slug) :=
  upsertBillionaire_slug_mono _ _ _ s h

/-- One pipeline iteration preserves snapshot key membership. -/
theorem processRecord_key_mono (st : Store) (today : Int) (dsId : Option Nat)
    (r : InRecord) (k : Nat × Int) (h : k ∈ st.snapshots.map Snapshot.key) :
    k ∈ (processRecord st today dsId r).1.snapshots.map Snapshot.key :=
  insertDailySnapshot_key_mono _ _ _ _ _ _ _ k h

/-- One pipeline iteration keeps every existing entity with its slug and id. -/
theorem processRecord_entity_stable (st : Store) (today : Int) (dsId : Option Nat)
    (r : InRecord) (e : Entity) (he : e ∈ st.entities) :
    ∃ e2 ∈ (processRecord st today dsId r).1.entities,
      e2.slug = e.slug ∧ e2.id = e.id :=
  upsertBillionaire_id_stable _ _ _ e he

/-- The batch loop preserves both uniqueness invariants. -/
theorem processBatch_invariants (today : Int) (dsId : Option Nat) :
    ∀ (rs : List InRecord) (st : Store), slugsNodup st.entities →
      snapKeysNodup st.snapshots →
      slugsNodup (processBatch st today dsId rs).1.entities ∧
        snapKeysNodup (processBatch st today dsId rs).1.snapshots := by
  intro rs
  induction rs with
  | nil => intro st h1 h2; exact ⟨h1, h2⟩
  | cons r rest ih =>
      intro st h1 h2
      obtain ⟨h1a, h2a⟩ := processRecord_invariants st today dsId r h1 h2
      exact ih _ h1a h2a

/-- The batch loop preserves slug membership. -/
theorem processBatch_slug_mono (today : Int) (dsId : Option Nat) :
    ∀ (rs : List InRecord) (st : Store) (s : String),
      s ∈ st.entities.map (fun e => e.slug) →
      s ∈ (processBatch st today dsId rs).1.entities.map (fun e => e.slug) := by
  intro rs
  induction rs with
  | nil => intro st s h; exact h
  | cons r rest ih =>
      intro st s h
      exact ih _ s (processRecord_slug_mono st today dsId r s h)

/-- The batch loop preserves snapshot key membership. -/
theorem processBatch_key_mono (today : Int) (dsId : Option Nat) :
    ∀ (rs : List InRecord) (st : Store) (k : Nat × Int),
      k ∈ st.snapshots.map Snapshot.key →
      k ∈ (processBatch st today dsId rs).1.snapshots.map Snapshot.key := by
  intro rs
  induction rs with
  | nil => intro st k h; exact h
  | cons r rest ih =>
      intro st k h
      exact ih _ k (processRecord_key_mono st today dsId r k h)

/-- The batch loop keeps every existing entity with its slug and id. -/
theorem processBatch_entity_stable (today : Int) (dsId : Option Nat) :
    ∀ (rs : List InRecord) (st : Store) (e : Entity), e ∈ st.entities →
      ∃ e2 ∈ (processBatch st today dsId rs).1.entities,
        e2.slug = e.slug ∧ e2.id = e.id := by
  intro rs
  induction rs with
  | nil => intro st e he; exact ⟨e, he, rfl, rfl⟩
  | cons r rest ih =>
      intro st e he
      obtain ⟨e1, he1, hs1, hi1⟩ := processRecord_entity_stable st today dsId r e he
      obtain ⟨e2, he2, hs2, hi2⟩ := ih _ e1 he1
      exact ⟨e2, he2, hs2.trans hs1, hi2.trans hi1⟩

/-- After one iteration for a record, an entity with the record's slug exists
and its snapshot for today is stored. -/
theorem processRecord_covers (st : Store) (today : Int) (dsId : Option Nat)
    (r : InRecord) :
    ∃ e ∈ (processRecord st today dsId r).1.entities,
      e.slug = r.slug ∧
        (e.id, today) ∈ (processRecord st today dsId r).1.snapshots.map
          Snapshot.key := by
  obtain ⟨e, he, hslug, hid⟩ := upsertBillionaire_present st.entities r.slug r.data
  refine ⟨e, he, hslug, ?_⟩
  rw [hid]
  exact insertDailySnapshot_key_present st.snapshots
    (upsertBillionaire st.entities r.slug r.data).2.1 today r.netWorth
    (some r.rank) (computeDailyChange st.snapshots
      (upsertBillionaire st.entities r.slug r.data).2.1 today r.netWorth) dsId

/-- After the batch, every record has its entity and its snapshot for today. -/
theorem processBatch_covers (today : Int) (dsId : Option Nat) :
    ∀ (rs : List InRecord) (st : Store), ∀ r ∈ rs,
      ∃ e ∈ (processBatch st today dsId rs).1.entities,
        e.slug = r.slug ∧
          (e.id, today) ∈ (processBatch st today dsId rs).1.snapshots.map
            Snapshot.key := by
  intro rs
  induction rs with
  | nil => intro st r hr; cases hr
  | cons r0 rest ih =>
      intro st r hr
      rcases List.mem_cons.mp hr with rfl | hr2
      · obtain ⟨e, he, hslug, hkey⟩ := processRecord_covers st today dsId r
        obtain ⟨e2, he2, hs2, hi2⟩ :=
          processBatch_entity_stable today dsId rest _ e he
        refine ⟨e2, he2, hs2.trans hslug, ?_⟩
        rw [hi2]
        exact processBatch_key_mono today dsId rest _ _ hkey
      · exact ih _ r hr2

/-- When every slug of the batch is already present, the loop reports
wasCreated false for every record. -/
theorem processBatch_flags_false (today : Int) (dsId : Option Nat) :
    ∀ (rs : List InRecord) (st : Store),
      (∀ r ∈ rs, r.slug ∈ st.entities.map (fun e => e.slug)) →
      ∀ b ∈ (processBatch st today dsId rs).2, b = false := by
  intro rs
  induction rs with
  | nil => intro st _ b hb; cases hb
  | cons r0 rest ih =>
      intro st hpres b hb
      rcases List.mem_cons.mp hb with rfl | hb2
      · have hmem := hpres r0 (List.mem_cons_self _ _)
        obtain ⟨e, he, hes⟩ := List.mem_map.mp hmem
        by_cases hw : (upsertBillionaire st.entities r0.slug r0.data).2.2 = true
        · exact absurd hes
            ((upsertBillionaire_wasCreated st.entities r0.slug r0.data).mp hw e he)
        · exact Bool.eq_false_iff.mpr (fun hcon => hw hcon)
      · refine ih _ ?_ b hb2
        intro r hrr
        exact processRecord_slug_mono st today dsId r0 r.slug
          (hpres r (List.mem_cons_of_mem _ hrr))

/-- After the batch, every record's slug is present. -/
theorem processBatch_slugs_present (today : Int) (dsId : Option Nat)
    (rs : List InRecord) (st : Store) :
    ∀ r ∈ rs, r.slug ∈ (processBatch st today dsId rs).1.entities.map
      (fun e => e.slug) := by
  intro r hr
  obtain ⟨e, he, hslug, _⟩ := processBatch_covers today dsId rs st r hr
  exact List.mem_map.mpr ⟨e, he, hslug⟩

/-- C2: upsertBillionaire reports wasCreated true exactly when no row with
the slug existed before the call; and running the batch loop twice with
identical input for the same day, from any store satisfying the uniqueness
invariants, leaves pairwise-distinct slugs and snapshot keys, exactly one
entity per batch slug with exactly one snapshot for (that entity, today),
and reports wasCreated false for every record of the second run. -/
theorem c2_idempotent_upsert_honest_wasCreated :
    (∀ (es : List Entity) (slug : String) (d : EntityData),
      (upsertBillionaire es slug d).2.2 = true ↔ ∀ e ∈ es, e.slug ≠ slug) ∧
      (∀ (st : Store) (today : Int) (dsId : Option Nat) (rs : List InRecord),
        slugsNodup st.entities → snapKeysNodup st.snapshots →
        slugsNodup (processBatch (processBatch st today dsId rs).1 today dsId
            rs).1.entities ∧
          snapKeysNodup (processBatch (processBatch st today dsId rs).1 today dsId
            rs).1.snapshots ∧
          (∀ r ∈ rs,
            ∃ e ∈ (processBatch (processBatch st today dsId rs).1 today dsId
                rs).1.entities,
              e.slug = r.slug ∧
                (e.id, today) ∈ (processBatch (processBatch st today dsId rs).1
                  today dsId rs).1.snapshots.map Snapshot.key) ∧
          (∀ b ∈ (processBatch (processBatch st today dsId rs).1 today dsId rs).2,
            b = false)) := by
  refine ⟨upsertBillionaire_wasCreated, ?_⟩
  intro st today dsId rs h1 h2
  obtain ⟨h1a, h2a⟩ := processBatch_invariants today dsId rs st h1 h2
  obtain ⟨h1b, h2b⟩ := processBatch_invariants today dsId rs _ h1a h2a
  refine ⟨h1b, h2b, ?_, ?_⟩
  · exact processBatch_covers today dsId rs _
  · exact processBatch_flags_false today dsId rs _
      (processBatch_slugs_present today dsId rs st)

/-- Concrete batch for the C2 witness. -/
def c2Recs : List InRecord :=
  [{ slug := "alice", netWorth := 500, rank := 1,
     data := { person_name := "Alice", gender := none,
               country_of_citizenship := none, industries := [],
               birth_date := none, image_url := none, bio := none,
               forbes_uri := none } },
   { slug := "bob", netWorth := 400, rank := 2,
     data := { person_name := "Bob", gender := none,
               country_of_citizenship := none, industries := [],
               birth_date := none, image_url := none, bio := none,
               forbes_uri := none } }]

/-- Witness for C2: from the empty store, the second identical run reports
wasCreated false for both records. -/
theorem c2_idempotent_upsert_honest_wasCreated_witness :
    ((processBatch (processBatch { entities := [], snapshots := [] } 10 none
        c2Recs).1 10 none c2Recs).2.all (fun b => !b)) = true := by
  have h := c2_idempotent_upsert_honest_wasCreated.2
    { entities := [], snapshots := [] } 10 none c2Recs
    (by unfold slugsNodup; decide) (by unfold snapKeysNodup; decide)
  rw [List.all_eq_true]
  intro b hb
  rw [h.2.2.2 b hb]
  rfl

end WealthObservatory
